import Mathlib

/-!
A shallow embedding of `src/investor_agent/yfinance_utils.py`, covering the
options pipeline: `get_options_chain` and `get_filtered_options`.

Modelling conventions:
* The remote provider (`yf.Ticker(...).option_chain`, `t.options`) is an
  oracle argument; a raised provider exception is `Except.error msg`.
* Python's `try/except` wrappers become total functions returning the same
  `(result, error-message)` pair the source returns, with `None` as `none`.
* `datetime.strptime(s, "%Y-%m-%d")` is modelled by `parseDate`: a 4-digit
  year, 1-2 digit month and day (CPython's `_strptime` regexes), and a valid
  calendar day for the month, leap years included.
* pandas `DataFrame`s are lists of rows; numeric (float) columns are modelled
  as rationals (NaN/inf are outside the model).
* `df.sort_values(['openInterest','volume'], ascending=[False, False])` with a
  list of keys is pandas' stable lexicographic sort; a stable sort for a total
  preorder is unique, and is computed here by a stable insertion sort.
-/

/-- Python truthiness of a `str | None` value: `None` and `""` are falsy. -/
def truthyOpt (o : Option String) : Bool :=
  match o with
  | none => false
  | some s => !s.isEmpty

/-- A calendar date, as produced by `datetime.date`. -/
structure Date where
  year : Nat
  month : Nat
  day : Nat
deriving DecidableEq, Repr

/-- `date` comparison is lexicographic on (year, month, day). -/
def dateLe (a b : Date) : Bool :=
  (a.year < b.year) ||
    (a.year == b.year &&
      ((a.month < b.month) || (a.month == b.month && a.day ≤ b.day)))

/-- Split a character list on `-` separators (like `"a-b".split("-")`). -/
def splitOnDash : List Char → List (List Char)
  | [] => [[]]
  | c :: cs =>
    let rest := splitOnDash cs
    if c = '-' then [] :: rest
    else
      match rest with
      | [] => [[c]]
      | g :: gs => (c :: g) :: gs

/-- Digits to a natural number, most significant first. -/
def digitsToNat (l : List Char) : Nat :=
  l.foldl (fun n c => n * 10 + (c.toNat - 48)) 0

/-- Gregorian leap year test, as used by `datetime`. -/
def isLeapYear (y : Nat) : Bool :=
  (y % 4 == 0 && y % 100 != 0) || y % 400 == 0

/-- Days in a month of a given year, as validated by `datetime`. -/
def daysInMonth (y m : Nat) : Nat :=
  if m = 2 then (if isLeapYear y then 29 else 28)
  else if m = 4 ∨ m = 6 ∨ m = 9 ∨ m = 11 then 30
  else 31

/-- `datetime.strptime(s, "%Y-%m-%d").date()`: `none` when the Python call
raises `ValueError`. CPython's `_strptime` requires exactly 4 year digits,
1-2 month digits (value 1-12), 1-2 day digits, the whole string consumed,
and `datetime` then rejects a day out of range for the month. -/
def parseDate (s : String) : Option Date :=
  match splitOnDash s.toList with
  | [ys, ms, ds] =>
    if ys.length = 4 ∧ ys.all Char.isDigit
        ∧ 1 ≤ ms.length ∧ ms.length ≤ 2 ∧ ms.all Char.isDigit
        ∧ 1 ≤ ds.length ∧ ds.length ≤ 2 ∧ ds.all Char.isDigit then
      let y := digitsToNat ys
      let m := digitsToNat ms
      let d := digitsToNat ds
      if 1 ≤ m ∧ m ≤ 12 ∧ 1 ≤ d ∧ d ≤ daysInMonth y m then
        some ⟨y, m, d⟩
      else none
    else none
  | _ => none

/-- One option instrument row as returned by the provider (the columns the
pipeline touches: `strike`, `openInterest`, `volume`). -/
structure OptionRow where
  strike : Rat
  openInterest : Rat
  volume : Rat
deriving DecidableEq, Repr

/-- The provider's chain for one expiration: `chain.calls` and `chain.puts`. -/
structure Chain where
  calls : List OptionRow
  puts : List OptionRow
deriving DecidableEq, Repr

/-- A row after `chain.assign(expiryDate=expiry)`. -/
structure TaggedRow where
  row : OptionRow
  expiryDate : String
deriving DecidableEq, Repr

/-- The `option_type` argument: `"C"`, `"P"`, or `None`. -/
inductive OptionType where
  | C
  | P
deriving DecidableEq, Repr

/-- `get_options_chain(ticker, expiry, option_type)` with the provider's
`option_chain` call abstracted as the oracle `fetch`; a raised provider
exception is `Except.error` and is mapped to `(None, str(e))` by the
function's `except` clause. -/
def get_options_chain (fetch : String → String → Except String Chain)
    (ticker : String) (expiry : Option String)
    (option_type : Option OptionType) :
    Option (List OptionRow) × Option String :=
  if !truthyOpt expiry then (none, some "No expiry date provided")
  else
    match fetch ticker (expiry.getD "") with
    | .error e => (none, some e)
    | .ok chain =>
      match option_type with
      | some .C => (some chain.calls, none)
      | some .P => (some chain.puts, none)
      | none => (some (chain.calls ++ chain.puts), none)

/-- The condition of lines 187-188: `(not start_date_obj or exp_date >=
start_date_obj) and (not end_date_obj or exp_date <= end_date_obj)`. -/
def dateInRange (startObj endObj : Option Date) (d : Date) : Bool :=
  (match startObj with
   | none => true
   | some sd => dateLe sd d) &&
  (match endObj with
   | none => true
   | some ed => dateLe d ed)

/-- The loop at lines 184-189: keep each expiration `exp` whose parsed date
satisfies `(not start or exp_date >= start) and (not end or exp_date <= end)`,
in the provider's original order. An expiration string `strptime` cannot parse
raises `ValueError`, which escapes to the outer handler: modelled as
`Except.error` carrying the exception text. -/
def filterExpirations (startObj endObj : Option Date) :
    List String → Except String (List String)
  | [] => .ok []
  | exp :: rest =>
    match parseDate exp with
    | none => .error ("time data " ++ exp ++ " does not match format %Y-%m-%d")
    | some d =>
      match filterExpirations startObj endObj rest with
      | .error e => .error e
      | .ok tail =>
        .ok (if dateInRange startObj endObj d then exp :: tail else tail)

/-- `start_date_obj = datetime.strptime(start_date, ...).date() if start_date
else None` (line 180-181). -/
def dateObjOf (o : Option String) : Option Date :=
  if truthyOpt o then parseDate (o.getD "") else none

/-- The boolean mask of lines 216-220 restricted to one row: starts all-true,
`&=` with `strike >= strike_lower` and `strike <= strike_upper` when given. -/
def strikePass (lo hi : Option Rat) (r : TaggedRow) : Bool :=
  (match lo with
   | none => true
   | some l => decide (l ≤ r.row.strike)) &&
  (match hi with
   | none => true
   | some h => decide (r.row.strike ≤ h))

/-- Lines 215-221: the mask is built and applied only when at least one bound
is given; otherwise `df` is left untouched. -/
def applyStrikeFilter (lo hi : Option Rat) (df : List TaggedRow) :
    List TaggedRow :=
  if lo.isSome || hi.isSome then df.filter (fun r => strikePass lo hi r) else df

/-- The sort key order of line 223: `a` may come no later than `b` iff `a`'s
open interest is larger, or equal with `a`'s volume at least `b`'s
(non-increasing lexicographic on (openInterest, volume)). -/
def rowLE (a b : TaggedRow) : Bool :=
  decide (b.row.openInterest < a.row.openInterest ∨
    (a.row.openInterest = b.row.openInterest ∧ b.row.volume ≤ a.row.volume))

/-- Insert into a sorted list, before the first element it may precede; ties
keep the incoming element first, which makes the sort stable. -/
def insertSorted (a : TaggedRow) : List TaggedRow → List TaggedRow
  | [] => [a]
  | b :: bs => if rowLE a b then a :: b :: bs else b :: insertSorted a bs

/-- `df.sort_values(['openInterest', 'volume'], ascending=[False, False])`
(line 223). With a list of keys pandas sorts by a stable lexsort; the stable
sort for the total preorder `rowLE` is unique, computed here by stable
insertion sort. -/
def sortByOIVolume : List TaggedRow → List TaggedRow
  | [] => []
  | a :: as => insertSorted a (sortByOIVolume as)

/-- Lines 195-207: fetch every valid expiration through `get_options_chain`
(the `ThreadPoolExecutor.map` keeps input order), skip outcomes whose error
is truthy or whose frame is `None`, and tag each kept frame's rows with the
expiration it was fetched for (`chain.assign(expiryDate=expiry)`). -/
def fetchStage (fetch : String → String → Except String Chain)
    (ticker : String) (option_type : Option OptionType)
    (valid : List String) : List (List TaggedRow) :=
  valid.filterMap (fun exp =>
    let res := get_options_chain fetch ticker (some exp) option_type
    if truthyOpt res.2 then none
    else res.1.map (fun rows => rows.map (fun r => TaggedRow.mk r exp)))

/-- `get_filtered_options` (lines 150-227). The provider is abstracted by two
oracles: `expirationsR` for `t.options` (line 174) and `fetch` for the
per-expiration `option_chain` call inside `get_options_chain`; an oracle
`Except.error` is a raised provider exception, caught by the function's
outer `except` clause (lines 225-227). -/
def get_filtered_options (fetch : String → String → Except String Chain)
    (expirationsR : Except String (List String)) (ticker : String)
    (start_date end_date : Option String)
    (strike_lower strike_upper : Option Rat)
    (option_type : Option OptionType) :
    Option (List TaggedRow) × Option String :=
  if truthyOpt start_date && (parseDate (start_date.getD "")).isNone then
    (none, some "Invalid start_date format. Use YYYY-MM-DD")
  else if truthyOpt end_date && (parseDate (end_date.getD "")).isNone then
    (none, some "Invalid end_date format. Use YYYY-MM-DD")
  else
    match expirationsR with
    | .error e => (none, some ("Failed to retrieve options data: " ++ e))
    | .ok expirations =>
      if expirations.isEmpty then
        (none, some ("No options available for " ++ ticker))
      else
        match filterExpirations (dateObjOf start_date) (dateObjOf end_date)
            expirations with
        | .error e => (none, some ("Failed to retrieve options data: " ++ e))
        | .ok valid_expirations =>
          if valid_expirations.isEmpty then
            (none, some ("No options found for " ++ ticker ++
              " within specified date range"))
          else
            let chains := fetchStage fetch ticker option_type valid_expirations
            if chains.isEmpty then
              (none, some ("No options found for " ++ ticker ++
                " matching criteria"))
            else
              (some (sortByOIVolume
                (applyStrikeFilter strike_lower strike_upper chains.flatten)),
               none)

/-- The side of the chain selected by `option_type` ("C" → calls, "P" → puts,
absent → calls then puts). -/
def sideRows (option_type : Option OptionType) (c : Chain) : List OptionRow :=
  match option_type with
  | some .C => c.calls
  | some .P => c.puts
  | none => c.calls ++ c.puts

/-- The pair of columns line 223 sorts on. -/
def rowKey (r : TaggedRow) : Rat × Rat :=
  (r.row.openInterest, r.row.volume)

theorem rowLE_total (a b : TaggedRow) : rowLE a b = true ∨ rowLE b a = true := by
  simp only [rowLE, decide_eq_true_iff]
  rcases lt_trichotomy a.row.openInterest b.row.openInterest with h | h | h
  · exact Or.inr (Or.inl h)
  · rcases le_total a.row.volume b.row.volume with hv | hv
    · exact Or.inr (Or.inr ⟨h.symm, hv⟩)
    · exact Or.inl (Or.inr ⟨h, hv⟩)
  · exact Or.inl (Or.inl h)

theorem rowLE_trans {a b c : TaggedRow} (hab : rowLE a b = true)
    (hbc : rowLE b c = true) : rowLE a c = true := by
  simp only [rowLE, decide_eq_true_iff] at hab hbc ⊢
  rcases hab with hab | ⟨hab1, hab2⟩
  · rcases hbc with hbc | ⟨hbc1, hbc2⟩
    · exact Or.inl (hbc.trans hab)
    · exact Or.inl (hbc1 ▸ hab)
  · rcases hbc with hbc | ⟨hbc1, hbc2⟩
    · exact Or.inl (hab1 ▸ hbc)
    · exact Or.inr ⟨hab1.trans hbc1, hbc2.trans hab2⟩

theorem rowLE_of_not {a b : TaggedRow} (h : rowLE a b = false) :
    rowLE b a = true := by
  rcases rowLE_total a b with h1 | h1
  · rw [h1] at h; cases h
  · exact h1

theorem rowLE_of_key_eq {a b : TaggedRow} (h : rowKey a = rowKey b) :
    rowLE a b = true := by
  simp only [rowKey, Prod.mk.injEq] at h
  simp only [rowLE, decide_eq_true_iff]
  exact Or.inr ⟨h.1, le_of_eq h.2.symm⟩

theorem insertSorted_perm (a : TaggedRow) (l : List TaggedRow) :
    List.Perm (insertSorted a l) (a :: l) := by
  induction l with
  | nil => simp [insertSorted]
  | cons b bs ih =>
    simp only [insertSorted]
    split
    · exact List.Perm.refl _
    · exact (ih.cons b).trans (List.Perm.swap a b bs)

theorem sortByOIVolume_perm (l : List TaggedRow) :
    List.Perm (sortByOIVolume l) l := by
  induction l with
  | nil => simp [sortByOIVolume]
  | cons a as ih => exact (insertSorted_perm a _).trans (ih.cons a)

theorem mem_sortByOIVolume {r : TaggedRow} {l : List TaggedRow} :
    r ∈ sortByOIVolume l ↔ r ∈ l :=
  (sortByOIVolume_perm l).mem_iff

theorem pairwise_insertSorted (a : TaggedRow) {l : List TaggedRow}
    (h : l.Pairwise (fun x y => rowLE x y = true)) :
    (insertSorted a l).Pairwise (fun x y => rowLE x y = true) := by
  induction l with
  | nil => simp [insertSorted]
  | cons b bs ih =>
    simp only [insertSorted]
    rcases List.pairwise_cons.mp h with ⟨hb, hbs⟩
    split
    · rename_i hab
      refine List.pairwise_cons.mpr ⟨?_, h⟩
      intro y hy
      rcases List.mem_cons.mp hy with rfl | hy
      · exact hab
      · exact rowLE_trans hab (hb y hy)
    · rename_i hab
      refine List.pairwise_cons.mpr ⟨?_, ih hbs⟩
      intro y hy
      rcases List.mem_cons.mp ((insertSorted_perm a bs).mem_iff.mp hy) with
        rfl | hy2
      · exact rowLE_of_not (Bool.eq_false_iff.mpr hab)
      · exact hb y hy2

theorem sorted_sortByOIVolume (l : List TaggedRow) :
    (sortByOIVolume l).Pairwise (fun x y => rowLE x y = true) := by
  induction l with
  | nil => simp [sortByOIVolume]
  | cons a as ih => exact pairwise_insertSorted a ih

theorem filter_key_insertSorted (k : Rat × Rat) (a : TaggedRow)
    (l : List TaggedRow) :
    (insertSorted a l).filter (fun r => decide (rowKey r = k)) =
      (if rowKey a = k then [a] else []) ++
        l.filter (fun r => decide (rowKey r = k)) := by
  induction l with
  | nil =>
    by_cases hk : rowKey a = k <;> simp [insertSorted, List.filter_cons, hk]
  | cons b bs ih =>
    simp only [insertSorted]
    split
    · by_cases hk : rowKey a = k <;> simp [List.filter_cons, hk]
    · rename_i hab
      by_cases hk : rowKey a = k
      · have hbk : ¬ rowKey b = k := by
          intro hbk
          exact hab (rowLE_of_key_eq (hk.trans hbk.symm))
        simp [List.filter_cons, hbk, ih, hk]
      · simp [List.filter_cons, ih, hk]

theorem filter_key_sortByOIVolume (k : Rat × Rat) (l : List TaggedRow) :
    (sortByOIVolume l).filter (fun r => decide (rowKey r = k)) =
      l.filter (fun r => decide (rowKey r = k)) := by
  induction l with
  | nil => simp [sortByOIVolume]
  | cons a as ih =>
    simp only [sortByOIVolume, filter_key_insertSorted, ih, List.filter_cons]
    by_cases hk : rowKey a = k <;> simp [hk]

theorem applyStrikeFilter_eq_filter (lo hi : Option Rat)
    (df : List TaggedRow) :
    applyStrikeFilter lo hi df = df.filter (fun r => strikePass lo hi r) := by
  cases lo <;> cases hi <;> simp [applyStrikeFilter, strikePass]

/-- The claim's selection predicate: the expiration parses and its date is
≥ `start` (when given) and ≤ `end` (when given). -/
def expInRange (s e : Option Date) (x : String) : Bool :=
  match parseDate x with
  | none => false
  | some d => dateInRange s e d

theorem filterExpirations_eq_filter {s e : Option Date} {l : List String}
    (h : ∀ x ∈ l, (parseDate x).isSome = true) :
    filterExpirations s e l = .ok (l.filter (fun x => expInRange s e x)) := by
  induction l with
  | nil => simp [filterExpirations]
  | cons exp rest ih =>
    have hexp := h exp (List.mem_cons_self exp rest)
    obtain ⟨d, hd⟩ := Option.isSome_iff_exists.mp hexp
    have hrest : ∀ x ∈ rest, (parseDate x).isSome = true := fun x hx =>
      h x (List.mem_cons_of_mem exp hx)
    have hrange : expInRange s e exp = dateInRange s e d := by
      simp [expInRange, hd]
    rw [List.filter_cons]
    simp only [filterExpirations, hd, ih hrest, hrange]

theorem filterExpirations_ok_parse {s e : Option Date} {l v : List String}
    (h : filterExpirations s e l = .ok v) :
    ∀ x ∈ v, (parseDate x).isSome = true := by
  induction l generalizing v with
  | nil =>
    simp only [filterExpirations, Except.ok.injEq] at h
    subst h
    intro x hx
    cases hx
  | cons exp rest ih =>
    simp only [filterExpirations] at h
    rcases hp : parseDate exp with _ | d
    · rw [hp] at h
      cases h
    · rw [hp] at h
      rcases hrec : filterExpirations s e rest with er | tail
      · rw [hrec] at h
        cases h
      · rw [hrec] at h
        simp only [Except.ok.injEq] at h
        subst h
        intro x hx
        split at hx
        · rcases List.mem_cons.mp hx with rfl | hx2
          · simp [hp]
          · exact ih hrec x hx2
        · exact ih hrec x hx

theorem parseDate_ne_empty {x : String} (h : (parseDate x).isSome = true) :
    x ≠ "" := by
  intro hx
  subst hx
  simp [parseDate, splitOnDash, String.toList] at h

theorem truthyOpt_some {x : String} (hx : x ≠ "") :
    truthyOpt (some x) = true := by
  have hemp : x.isEmpty = false := by
    rw [Bool.eq_false_iff]
    intro hemp
    exact hx ((String.isEmpty_iff x).mp hemp)
  simp [truthyOpt, hemp]

/-- A successful provider fetch for a nonempty expiry returns exactly the
requested side, with no error message. -/
theorem get_options_chain_ok {fetch : String → String → Except String Chain}
    {ticker exp : String} {chain : Chain} (k : Option OptionType)
    (hx : exp ≠ "") (hf : fetch ticker exp = .ok chain) :
    get_options_chain fetch ticker (some exp) k =
      (some (sideRows k chain), none) := by
  have htr : truthyOpt (some exp) = true := truthyOpt_some hx
  simp only [get_options_chain, htr, Bool.not_true, Option.getD_some, hf,
    Bool.false_eq_true, if_false]
  cases k with
  | none => rfl
  | some t => cases t <;> rfl

/-- A failed provider fetch for a nonempty expiry returns no frame and the
exception text as error message. -/
theorem get_options_chain_error {fetch : String → String → Except String Chain}
    {ticker exp : String} {msg : String} (k : Option OptionType)
    (hx : exp ≠ "") (hf : fetch ticker exp = .error msg) :
    get_options_chain fetch ticker (some exp) k = (none, some msg) := by
  have htr : truthyOpt (some exp) = true := truthyOpt_some hx
  simp [get_options_chain, htr, hf]

/-- A failed fetch contributes nothing to the fetch stage: its frame is
`None`, so the loop's `continue`/`is not None` guards drop it. -/
theorem fetchStage_none_of_error {fetch : String → String → Except String Chain}
    {ticker x : String} {msg : String} (k : Option OptionType)
    (hx : x ≠ "") (hf : fetch ticker x = .error msg) :
    (let res := get_options_chain fetch ticker (some x) k
     if truthyOpt res.2 then none
     else res.1.map (fun rows => rows.map (fun r => TaggedRow.mk r x))) =
      (none : Option (List TaggedRow)) := by
  rw [get_options_chain_error k hx hf]
  cases truthyOpt (some msg) <;> simp

/-- Membership in the merged frame: exactly the rows of successfully fetched
valid expirations, tagged with the expiration they were fetched for. -/
theorem mem_fetchStage_flatten
    {fetch : String → String → Except String Chain} {ticker : String}
    {k : Option OptionType} {valid : List String} {r : TaggedRow}
    (hv : ∀ x ∈ valid, x ≠ "") :
    r ∈ (fetchStage fetch ticker k valid).flatten ↔
      ∃ x ∈ valid, ∃ ch, fetch ticker x = .ok ch ∧
        r.expiryDate = x ∧ r.row ∈ sideRows k ch := by
  simp only [fetchStage, List.mem_flatten, List.mem_filterMap]
  constructor
  · rintro ⟨rows, ⟨x, hx, hfx⟩, hr⟩
    rcases hfetch : fetch ticker x with msg | ch
    · rw [fetchStage_none_of_error k (hv x hx) hfetch] at hfx
      cases hfx
    · rw [get_options_chain_ok k (hv x hx) hfetch] at hfx
      simp only [truthyOpt, Bool.false_eq_true, if_false, Option.map_some',
        Option.some.injEq] at hfx
      subst hfx
      rcases List.mem_map.mp hr with ⟨rr, hrr, rfl⟩
      exact ⟨x, hx, ch, hfetch, rfl, hrr⟩
  · rintro ⟨x, hx, ch, hfetch, hexp, hrow⟩
    refine ⟨(sideRows k ch).map (fun rr => TaggedRow.mk rr x), ⟨x, hx, ?_⟩, ?_⟩
    · rw [get_options_chain_ok k (hv x hx) hfetch]
      simp [truthyOpt]
    · rcases r with ⟨rr, xd⟩
      cases hexp
      exact List.mem_map.mpr ⟨rr, hrow, rfl⟩

/-- The fetch stage is empty exactly when every valid expiration's fetch
failed. -/
theorem fetchStage_eq_nil_iff
    {fetch : String → String → Except String Chain} {ticker : String}
    {k : Option OptionType} {valid : List String}
    (hv : ∀ x ∈ valid, x ≠ "") :
    fetchStage fetch ticker k valid = [] ↔
      ∀ x ∈ valid, ∀ ch, fetch ticker x ≠ .ok ch := by
  simp only [fetchStage, List.filterMap_eq_nil_iff]
  constructor
  · intro h x hx ch hfetch
    have := h x hx
    rw [get_options_chain_ok k (hv x hx) hfetch] at this
    simp [truthyOpt] at this
  · intro h x hx
    rcases hfetch : fetch ticker x with msg | ch
    · exact fetchStage_none_of_error k (hv x hx) hfetch
    · exact absurd hfetch (h x hx ch)

/-- After both date gates pass and the selection is nonempty, the result is
entirely determined by the fetch stage over the selected expirations. -/
theorem get_filtered_options_gates
    (fetch : String → String → Except String Chain)
    {exps valid : List String} {s e : Option String}
    (ticker : String) (lo hi : Option Rat) (k : Option OptionType)
    (hs : truthyOpt s = true → (parseDate (s.getD "")).isSome = true)
    (he : truthyOpt e = true → (parseDate (e.getD "")).isSome = true)
    (hne : exps ≠ [])
    (hsel : filterExpirations (dateObjOf s) (dateObjOf e) exps = .ok valid)
    (hvne : valid ≠ []) :
    get_filtered_options fetch (.ok exps) ticker s e lo hi k =
      if (fetchStage fetch ticker k valid).isEmpty then
        (none, some ("No options found for " ++ ticker ++ " matching criteria"))
      else
        (some (sortByOIVolume (applyStrikeFilter lo hi
          (fetchStage fetch ticker k valid).flatten)), none) := by
  have h1 : (truthyOpt s && (parseDate (s.getD "")).isNone) = false := by
    cases hts : truthyOpt s
    · simp
    · obtain ⟨d, hd⟩ := Option.isSome_iff_exists.mp (hs hts)
      simp [hd]
  have h2 : (truthyOpt e && (parseDate (e.getD "")).isNone) = false := by
    cases hts : truthyOpt e
    · simp
    · obtain ⟨d, hd⟩ := Option.isSome_iff_exists.mp (he hts)
      simp [hd]
  have h3 : exps.isEmpty = false := List.isEmpty_eq_false.mpr hne
  have h4 : valid.isEmpty = false := List.isEmpty_eq_false.mpr hvne
  simp only [get_filtered_options, h1, h2, h3, hsel, h4, Bool.false_eq_true,
    if_false]

/-- Inversion: a data result can only come from the final return at line 223,
so it is the stable sort of the strike-filtered merge of the fetched chains,
and the error component is `None`. -/
theorem get_filtered_options_some_inv
    {fetch : String → String → Except String Chain}
    {expR : Except String (List String)} {ticker : String}
    {s e : Option String} {lo hi : Option Rat} {k : Option OptionType}
    {df : List TaggedRow} {err : Option String}
    (h : get_filtered_options fetch expR ticker s e lo hi k = (some df, err)) :
    err = none ∧ ∃ exps valid, expR = .ok exps ∧
      filterExpirations (dateObjOf s) (dateObjOf e) exps = .ok valid ∧
      df = sortByOIVolume (applyStrikeFilter lo hi
        (fetchStage fetch ticker k valid).flatten) := by
  rcases hts : (truthyOpt s && (parseDate (s.getD "")).isNone) with _ | _
  case true =>
    simp [get_filtered_options, hts] at h
  case false =>
  rcases hte : (truthyOpt e && (parseDate (e.getD "")).isNone) with _ | _
  case true =>
    simp [get_filtered_options, hts, hte] at h
  case false =>
  rcases expR with msg | exps
  · simp [get_filtered_options, hts, hte] at h
  · by_cases hemp : exps = []
    · simp [get_filtered_options, hts, hte, hemp] at h
    · rcases hsel : filterExpirations (dateObjOf s) (dateObjOf e) exps with
        msg2 | valid
      · simp [get_filtered_options, hts, hte, hemp, hsel] at h
      · by_cases hvemp : valid = []
        · simp [get_filtered_options, hts, hte, hemp, hsel, hvemp] at h
        · by_cases hcemp : fetchStage fetch ticker k valid = []
          · simp [get_filtered_options, hts, hte, hemp, hsel, hvemp,
              hcemp] at h
          · simp [get_filtered_options, hts, hte, hemp, hsel, hvemp,
              hcemp] at h
            obtain ⟨h1, h2⟩ := h
            exact ⟨h2.symm, exps, valid, rfl, hsel, h1.symm⟩

/-- A result pair carries exactly one of a data frame and an error message. -/
def resultWellFormed {α : Type} (p : Option α × Option String) : Prop :=
  (p.1.isSome = true ∧ p.2 = none) ∨ (p.1 = none ∧ p.2.isSome = true)

/-- C10: for every ticker and option kind, calling `get_options_chain` with
`expiry` absent (`None` or the empty string) yields no data and exactly the
message "No expiry date provided"; the result does not depend on the provider
oracle, so no provider request is made. -/
theorem missing_expiry_error_no_fetch
    (fetch : String → String → Except String Chain)
    (ticker : String) (k : Option OptionType) :
    get_options_chain fetch ticker none k =
      (none, some "No expiry date provided") ∧
    get_options_chain fetch ticker (some "") k =
      (none, some "No expiry date provided") := by
  constructor <;> rfl

/-- C7: for a provider chain fetched successfully under a nonempty expiry,
`option_type = "C"` returns exactly the calls side, `"P"` exactly the puts
side, and an absent `option_type` returns calls followed by puts. -/
theorem option_type_selects_side
    (fetch : String → String → Except String Chain)
    (ticker expiry : String) (chain : Chain)
    (hx : expiry ≠ "")
    (hf : fetch ticker expiry = .ok chain) :
    get_options_chain fetch ticker (some expiry) (some .C) =
      (some chain.calls, none) ∧
    get_options_chain fetch ticker (some expiry) (some .P) =
      (some chain.puts, none) ∧
    get_options_chain fetch ticker (some expiry) none =
      (some (chain.calls ++ chain.puts), none) :=
  ⟨get_options_chain_ok (some .C) hx hf,
   get_options_chain_ok (some .P) hx hf,
   get_options_chain_ok none hx hf⟩

def chainW : Chain :=
  ⟨[⟨100, 7, 3⟩, ⟨125, 7, 3⟩], [⟨150, 2, 9⟩]⟩

def fetchOkW : String → String → Except String Chain :=
  fun _ _ => .ok chainW

theorem option_type_selects_side_witness :
    ("2025-01-17" ≠ "") ∧ fetchOkW "AAPL" "2025-01-17" = .ok chainW ∧
    (get_options_chain fetchOkW "AAPL" (some "2025-01-17") (some .C) =
        (some chainW.calls, none) ∧
      get_options_chain fetchOkW "AAPL" (some "2025-01-17") (some .P) =
        (some chainW.puts, none) ∧
      get_options_chain fetchOkW "AAPL" (some "2025-01-17") none =
        (some (chainW.calls ++ chainW.puts), none)) :=
  ⟨by decide, rfl,
    option_type_selects_side fetchOkW "AAPL" "2025-01-17" chainW
      (by decide) rfl⟩

/-- C6: for every input and every provider behaviour, both functions return a
(result, error-message) pair with exactly one side present; raised provider
exceptions (the oracles' `Except.error`) are converted into error-message
values by the `except` clauses, never propagated. -/
theorem pipeline_returns_result_error_pair
    (fetch : String → String → Except String Chain)
    (expR : Except String (List String)) (ticker : String)
    (expiry s e : Option String) (lo hi : Option Rat)
    (k : Option OptionType) :
    resultWellFormed (get_options_chain fetch ticker expiry k) ∧
    resultWellFormed (get_filtered_options fetch expR ticker s e lo hi k) := by
  constructor
  · unfold get_options_chain
    repeat' split
    all_goals simp [resultWellFormed]
  · rcases hts : (truthyOpt s && (parseDate (s.getD "")).isNone) with _ | _
    case true =>
      simp [get_filtered_options, resultWellFormed, hts]
    case false =>
    rcases hte : (truthyOpt e && (parseDate (e.getD "")).isNone) with _ | _
    case true =>
      simp [get_filtered_options, resultWellFormed, hts, hte]
    case false =>
    rcases expR with msg | exps
    · simp [get_filtered_options, resultWellFormed, hts, hte]
    · by_cases hemp : exps = []
      · simp [get_filtered_options, resultWellFormed, hts, hte, hemp]
      · rcases hsel : filterExpirations (dateObjOf s) (dateObjOf e) exps with
          msg2 | valid
        · simp [get_filtered_options, resultWellFormed, hts, hte, hemp, hsel]
        · by_cases hvemp : valid = []
          · simp [get_filtered_options, resultWellFormed, hts, hte, hemp,
              hsel, hvemp]
          · by_cases hcemp : fetchStage fetch ticker k valid = [] <;>
              simp [get_filtered_options, resultWellFormed, hts, hte, hemp,
                hsel, hvemp, hcemp]

/-- C2: when every available expiration is well-formed, the selection stage
keeps exactly the expirations whose date lies in the inclusive optional
range, preserving the provider's order; in particular the spec's scenario
selects ["2025-02-21", "2025-03-21"]. -/
theorem expiration_selection_exact (s e : Option Date) (l : List String)
    (h : ∀ x ∈ l, (parseDate x).isSome = true) :
    filterExpirations s e l = .ok (l.filter (fun x => expInRange s e x)) ∧
    filterExpirations (dateObjOf (some "2025-02-01"))
        (dateObjOf (some "2025-03-31"))
        ["2025-01-17", "2025-02-21", "2025-03-21"] =
      .ok ["2025-02-21", "2025-03-21"] :=
  ⟨filterExpirations_eq_filter h, by rfl⟩

theorem expiration_selection_exact_witness :
    (∀ x ∈ ["2025-01-17", "2025-02-21", "2025-03-21"],
      (parseDate x).isSome = true) ∧
    (filterExpirations (some ⟨2025, 2, 1⟩) (some ⟨2025, 3, 31⟩)
        ["2025-01-17", "2025-02-21", "2025-03-21"] =
      .ok (["2025-01-17", "2025-02-21", "2025-03-21"].filter
        (fun x => expInRange (some ⟨2025, 2, 1⟩) (some ⟨2025, 3, 31⟩) x)) ∧
      filterExpirations (dateObjOf (some "2025-02-01"))
          (dateObjOf (some "2025-03-31"))
          ["2025-01-17", "2025-02-21", "2025-03-21"] =
        .ok ["2025-02-21", "2025-03-21"]) :=
  ⟨by decide,
    expiration_selection_exact (some ⟨2025, 2, 1⟩) (some ⟨2025, 3, 31⟩)
      ["2025-01-17", "2025-02-21", "2025-03-21"] (by decide)⟩

/-- C8: for a nonempty well-formed expiration list of which no date lies in
the requested range, the selection stage returns an empty list as a normal
(`ok`) result, not an error. -/
theorem empty_selection_is_ok_empty {s e : Option Date} {l : List String}
    (hne : l ≠ [])
    (h : ∀ x ∈ l, (parseDate x).isSome = true)
    (hout : ∀ x ∈ l, expInRange s e x = false) :
    filterExpirations s e l = .ok [] := by
  rw [filterExpirations_eq_filter h, List.filter_eq_nil_iff.mpr]
  intro x hx
  simp [hout x hx]

theorem empty_selection_is_ok_empty_witness :
    (["2025-01-17"] ≠ ([] : List String)) ∧
    (∀ x ∈ ["2025-01-17"], (parseDate x).isSome = true) ∧
    (∀ x ∈ ["2025-01-17"],
      expInRange (some ⟨2025, 2, 1⟩) none x = false) ∧
    filterExpirations (some ⟨2025, 2, 1⟩) none ["2025-01-17"] = .ok [] :=
  ⟨by decide, by decide, by decide,
    empty_selection_is_ok_empty (by decide) (by decide) (by decide)⟩

/-- C3 counterexample: `start_date` provided as the empty string does not
parse as `YYYY-MM-DD`, yet the call does not return a validation error: the
empty string is falsy, so validation is skipped and the pipeline proceeds to
the provider and returns a data result. -/
theorem empty_start_date_skips_validation :
    parseDate "" = none ∧
    get_filtered_options (fun _ _ => .ok ⟨[], []⟩) (.ok ["2025-01-17"]) "XYZ"
      (some "") none none none none = (some [], none) := by
  constructor
  · decide
  · decide

/-- C3 (amended to non-empty inputs): a provided, non-empty `start_date` or
`end_date` that does not parse as `YYYY-MM-DD` makes `get_filtered_options`
return exactly the corresponding "Invalid ... format" validation error, for
every provider oracle (so no expiration list is requested and no chain is
fetched). -/
theorem invalid_nonempty_date_rejected_before_provider
    (fetch : String → String → Except String Chain)
    (expR : Except String (List String)) (ticker : String)
    (s e : Option String) (lo hi : Option Rat) (k : Option OptionType) :
    (∀ str, s = some str → str ≠ "" → parseDate str = none →
      get_filtered_options fetch expR ticker s e lo hi k =
        (none, some "Invalid start_date format. Use YYYY-MM-DD")) ∧
    ((truthyOpt s = true → (parseDate (s.getD "")).isSome = true) →
      ∀ str, e = some str → str ≠ "" → parseDate str = none →
        get_filtered_options fetch expR ticker s e lo hi k =
          (none, some "Invalid end_date format. Use YYYY-MM-DD")) := by
  constructor
  · rintro str rfl hne hparse
    have ht : truthyOpt (some str) = true := truthyOpt_some hne
    simp [get_filtered_options, ht, hparse]
  · rintro hs str rfl hne hparse
    have h1 : (truthyOpt s && (parseDate (s.getD "")).isNone) = false := by
      cases hts : truthyOpt s
      · simp
      · obtain ⟨d, hd⟩ := Option.isSome_iff_exists.mp (hs hts)
        simp [hd]
    have ht : truthyOpt (some str) = true := truthyOpt_some hne
    simp [get_filtered_options, h1, ht, hparse]

theorem invalid_nonempty_date_rejected_witness :
    (some "Jan-2025" = some "Jan-2025") ∧ ("Jan-2025" ≠ "") ∧
    parseDate "Jan-2025" = none ∧
    get_filtered_options (fun _ _ => .ok ⟨[], []⟩) (.error "offline") "XYZ"
      (some "Jan-2025") none none none none =
      (none, some "Invalid start_date format. Use YYYY-MM-DD") :=
  ⟨rfl, by decide, by decide,
    (invalid_nonempty_date_rejected_before_provider
      (fun _ _ => .ok ⟨[], []⟩) (.error "offline") "XYZ"
      (some "Jan-2025") none none none none).1
      "Jan-2025" rfl (by decide) (by decide)⟩

/-- C4: every data result of `get_filtered_options` is sorted by open
interest descending then volume descending (`rowLE` is exactly that
non-increasing lexicographic order), and rows tied on both keys appear in
their relative order from the original merge of the fetched chains (filtered
by the strike bounds): the sort is stable on merge order. -/
theorem result_sorted_desc_stable
    (fetch : String → String → Except String Chain)
    (expR : Except String (List String)) (ticker : String)
    (s e : Option String) (lo hi : Option Rat) (k : Option OptionType)
    (df : List TaggedRow) (err : Option String)
    (h : get_filtered_options fetch expR ticker s e lo hi k = (some df, err)) :
    df.Pairwise (fun a b => rowLE a b = true) ∧
    ∃ exps valid, expR = .ok exps ∧
      filterExpirations (dateObjOf s) (dateObjOf e) exps = .ok valid ∧
      ∀ key : Rat × Rat,
        df.filter (fun r => decide (rowKey r = key)) =
          ((fetchStage fetch ticker k valid).flatten).filter
            (fun r => decide (rowKey r = key) && strikePass lo hi r) := by
  obtain ⟨herr, exps, valid, hexp, hsel, hdf⟩ :=
    get_filtered_options_some_inv h
  subst hdf
  refine ⟨sorted_sortByOIVolume _, exps, valid, hexp, hsel, ?_⟩
  intro key
  rw [filter_key_sortByOIVolume, applyStrikeFilter_eq_filter,
    List.filter_filter]

/-- Merged rows with the spec scenario's strikes [90, 100, 125, 150, 200]. -/
def scenarioRows : List TaggedRow :=
  [⟨⟨90, 1, 1⟩, "2025-01-17"⟩, ⟨⟨100, 1, 1⟩, "2025-01-17"⟩,
   ⟨⟨125, 1, 1⟩, "2025-01-17"⟩, ⟨⟨150, 1, 1⟩, "2025-01-17"⟩,
   ⟨⟨200, 1, 1⟩, "2025-01-17"⟩]

/-- C5: every data result of `get_filtered_options` contains no row whose
strike is below `strike_lower` (when given) or above `strike_upper` (when
given); bounds are inclusive and an absent bound imposes no constraint, so
every merged row whose strike passes the bounds is retained; the spec's
scenario keeps exactly the strikes [100, 125, 150]. -/
theorem strike_filter_inclusive_bounds
    (fetch : String → String → Except String Chain)
    (expR : Except String (List String)) (ticker : String)
    (s e : Option String) (lo hi : Option Rat) (k : Option OptionType)
    (df : List TaggedRow) (err : Option String)
    (h : get_filtered_options fetch expR ticker s e lo hi k = (some df, err)) :
    (∀ r ∈ df, (∀ l, lo = some l → l ≤ r.row.strike) ∧
      (∀ u, hi = some u → r.row.strike ≤ u)) ∧
    (∃ exps valid, expR = .ok exps ∧
      filterExpirations (dateObjOf s) (dateObjOf e) exps = .ok valid ∧
      ∀ r ∈ (fetchStage fetch ticker k valid).flatten,
        strikePass lo hi r = true → r ∈ df) ∧
    (applyStrikeFilter (some 100) (some 150) scenarioRows).map
        (fun r => r.row.strike) = [100, 125, 150] := by
  obtain ⟨herr, exps, valid, hexp, hsel, hdf⟩ :=
    get_filtered_options_some_inv h
  subst hdf
  refine ⟨?_, ⟨exps, valid, hexp, hsel, ?_⟩, by decide⟩
  · intro r hr
    have hr2 := mem_sortByOIVolume.mp hr
    rw [applyStrikeFilter_eq_filter] at hr2
    have hpass := (List.mem_filter.mp hr2).2
    simp only [strikePass, Bool.and_eq_true] at hpass
    constructor
    · intro l hl
      subst hl
      simpa using hpass.1
    · intro u hu
      subst hu
      simpa using hpass.2
  · intro r hr hpass
    apply mem_sortByOIVolume.mpr
    rw [applyStrikeFilter_eq_filter]
    exact List.mem_filter.mpr ⟨hr, hpass⟩

/-- C1: with valid (or absent) dates and a nonempty expiration list, (a) if
at least one selected expiration's fetch succeeds, the run yields a data
result whose rows all come from successfully fetched selected expirations,
each tagged with the expiration it was fetched for, and every in-bounds row
of every successful fetch survives (failures never invalidate other
expirations' rows); (b) if every selected expiration's fetch fails, the run
yields an error-message result, not an exception. -/
theorem aggregation_partial_failure_tolerant
    (fetch : String → String → Except String Chain)
    (exps valid : List String) (ticker : String) (s e : Option String)
    (lo hi : Option Rat) (k : Option OptionType)
    (hs : truthyOpt s = true → (parseDate (s.getD "")).isSome = true)
    (he : truthyOpt e = true → (parseDate (e.getD "")).isSome = true)
    (hne : exps ≠ [])
    (hsel : filterExpirations (dateObjOf s) (dateObjOf e) exps = .ok valid) :
    ((∃ x ∈ valid, ∃ ch, fetch ticker x = .ok ch) →
      ∃ df, get_filtered_options fetch (.ok exps) ticker s e lo hi k =
          (some df, none) ∧
        (∀ r ∈ df, r.expiryDate ∈ valid ∧
          ∃ ch, fetch ticker r.expiryDate = .ok ch ∧ r.row ∈ sideRows k ch) ∧
        (∀ x ∈ valid, ∀ ch, fetch ticker x = .ok ch →
          ∀ row ∈ sideRows k ch, strikePass lo hi ⟨row, x⟩ = true →
            TaggedRow.mk row x ∈ df)) ∧
    (valid ≠ [] → (∀ x ∈ valid, ∀ ch, fetch ticker x ≠ .ok ch) →
      get_filtered_options fetch (.ok exps) ticker s e lo hi k =
        (none,
          some ("No options found for " ++ ticker ++ " matching criteria"))) := by
  have hv : ∀ x ∈ valid, x ≠ "" := fun x hx =>
    parseDate_ne_empty (filterExpirations_ok_parse hsel x hx)
  constructor
  · rintro ⟨x, hx, ch, hfetch⟩
    have hvne : valid ≠ [] := by
      intro h0
      subst h0
      cases hx
    rw [get_filtered_options_gates fetch ticker lo hi k hs he hne hsel hvne]
    have hchne : fetchStage fetch ticker k valid ≠ [] := by
      intro h0
      exact (fetchStage_eq_nil_iff hv).mp h0 x hx ch hfetch
    rw [List.isEmpty_eq_false.mpr hchne]
    simp only [Bool.false_eq_true, if_false]
    refine ⟨_, rfl, ?_, ?_⟩
    · intro r hr
      have hr2 := mem_sortByOIVolume.mp hr
      rw [applyStrikeFilter_eq_filter] at hr2
      obtain ⟨x2, hx2, ch2, hf2, hexp2, hrow2⟩ :=
        (mem_fetchStage_flatten hv).mp (List.mem_filter.mp hr2).1
      rw [hexp2]
      exact ⟨hx2, ch2, hf2, hrow2⟩
    · intro x2 hx2 ch2 hf2 row hrow hpass
      apply mem_sortByOIVolume.mpr
      rw [applyStrikeFilter_eq_filter]
      exact List.mem_filter.mpr
        ⟨(mem_fetchStage_flatten hv).mpr ⟨x2, hx2, ch2, hf2, rfl, hrow⟩, hpass⟩
  · intro hvne hfail
    rw [get_filtered_options_gates fetch ticker lo hi k hs he hne hsel hvne,
      (fetchStage_eq_nil_iff hv).mpr hfail]
    simp

def fetchFailW : String → String → Except String Chain :=
  fun _ _ => .error "HTTPError 404"

theorem aggregation_partial_failure_tolerant_witness :
    (truthyOpt none = true →
      (parseDate ((none : Option String).getD "")).isSome = true) ∧
    (["2025-01-17"] ≠ ([] : List String)) ∧
    filterExpirations (dateObjOf none) (dateObjOf none) ["2025-01-17"] =
      .ok ["2025-01-17"] ∧
    (["2025-01-17"] ≠ ([] : List String)) ∧
    (∀ x ∈ ["2025-01-17"], ∀ ch, fetchFailW "AAPL" x ≠ .ok ch) ∧
    get_filtered_options fetchFailW (.ok ["2025-01-17"]) "AAPL" none none
        none none none =
      (none,
        some ("No options found for " ++ "AAPL" ++ " matching criteria")) :=
  ⟨by decide, by decide, by rfl, by decide,
    fun x hx ch hch => Except.noConfusion hch,
    (aggregation_partial_failure_tolerant fetchFailW ["2025-01-17"]
        ["2025-01-17"] "AAPL" none none none none none
        (by decide) (by decide) (by decide) (by rfl)).2
      (by decide) (fun x hx ch hch => Except.noConfusion hch)⟩

def dfW : List TaggedRow :=
  [⟨⟨100, 7, 3⟩, "2025-01-17"⟩, ⟨⟨125, 7, 3⟩, "2025-01-17"⟩,
   ⟨⟨150, 2, 9⟩, "2025-01-17"⟩]

theorem result_sorted_desc_stable_witness :
    get_filtered_options fetchOkW (.ok ["2025-01-17"]) "AAPL" none none
        none none none = (some dfW, none) ∧
    (dfW.Pairwise (fun a b => rowLE a b = true) ∧
      ∃ exps valid,
        (.ok ["2025-01-17"] : Except String (List String)) = .ok exps ∧
        filterExpirations (dateObjOf none) (dateObjOf none) exps =
          .ok valid ∧
        ∀ key : Rat × Rat,
          dfW.filter (fun r => decide (rowKey r = key)) =
            ((fetchStage fetchOkW "AAPL" none valid).flatten).filter
              (fun r => decide (rowKey r = key) && strikePass none none r)) :=
  ⟨by decide,
    result_sorted_desc_stable fetchOkW (.ok ["2025-01-17"]) "AAPL" none none
      none none none dfW none (by decide)⟩

def chainS : Chain :=
  ⟨[⟨90, 1, 1⟩, ⟨100, 1, 1⟩, ⟨125, 1, 1⟩, ⟨150, 1, 1⟩, ⟨200, 1, 1⟩], []⟩

def fetchScenW : String → String → Except String Chain :=
  fun _ _ => .ok chainS

def dfS : List TaggedRow :=
  [⟨⟨100, 1, 1⟩, "2025-01-17"⟩, ⟨⟨125, 1, 1⟩, "2025-01-17"⟩,
   ⟨⟨150, 1, 1⟩, "2025-01-17"⟩]

theorem strike_filter_inclusive_bounds_witness :
    get_filtered_options fetchScenW (.ok ["2025-01-17"]) "AAPL" none none
        (some 100) (some 150) none = (some dfS, none) ∧
    ((∀ r ∈ dfS,
        (∀ l, (some 100 : Option Rat) = some l → l ≤ r.row.strike) ∧
        (∀ u, (some 150 : Option Rat) = some u → r.row.strike ≤ u)) ∧
      (∃ exps valid,
        (.ok ["2025-01-17"] : Except String (List String)) = .ok exps ∧
        filterExpirations (dateObjOf none) (dateObjOf none) exps =
          .ok valid ∧
        ∀ r ∈ (fetchStage fetchScenW "AAPL" none valid).flatten,
          strikePass (some 100) (some 150) r = true → r ∈ dfS) ∧
      (applyStrikeFilter (some 100) (some 150) scenarioRows).map
          (fun r => r.row.strike) = [100, 125, 150]) :=
  ⟨by decide,
    strike_filter_inclusive_bounds fetchScenW (.ok ["2025-01-17"]) "AAPL"
      none none (some 100) (some 150) none dfS none (by decide)⟩

example : parseDate "2025-01-17" = some ⟨2025, 1, 17⟩ := by decide
example : parseDate "2025-1-7" = some ⟨2025, 1, 7⟩ := by decide
example : parseDate "" = none := by decide
example : parseDate "2025-02-30" = none := by decide
example : parseDate "2024-02-29" = some ⟨2024, 2, 29⟩ := by decide
example : parseDate "17-01-2025" = none := by decide
example : parseDate "2025/01/17" = none := by decide
example : dateLe ⟨2025, 2, 1⟩ ⟨2025, 2, 21⟩ = true := by decide

example :
    filterExpirations (parseDate "2025-02-01") (parseDate "2025-03-31")
      ["2025-01-17", "2025-02-21", "2025-03-21"] =
    .ok ["2025-02-21", "2025-03-21"] := by rfl

example :
    get_filtered_options (fun _ _ => .ok ⟨[], []⟩) (.ok ["2025-01-17"]) "XYZ"
      (some "") none none none none = (some [], none) := by decide

example :
    get_filtered_options (fun _ _ => .error "boom") (.ok ["2025-01-17"]) "XYZ"
      none none none none none =
    (none, some "No options found for XYZ matching criteria") := by decide

example :
    get_filtered_options
      (fun _ _ => .ok ⟨[⟨100, 7, 3⟩], [⟨100, 7, 4⟩]⟩)
      (.ok ["2025-01-17"]) "XYZ" none none none none none =
    (some [⟨⟨100, 7, 4⟩, "2025-01-17"⟩, ⟨⟨100, 7, 3⟩, "2025-01-17"⟩], none) := by
  decide
